import Mathlib

/-!
# Inventory service (`main.go`): shallow embedding and verified properties

The Go program keeps an in-memory `Inventory` (a slice of `Item` plus the
counter `nextID`) and serves it through `ServeHTTP`.

Modelling conventions.

* The mutex serialises every access to the store, so a handler is a function
  from the store before the request to the store after it and the response.
* A request carries its method, its URL path and the outcome of
  `json.NewDecoder(r.Body).Decode(&item)`: `none` when `Decode` returns an
  error, `some item` with the decoded struct otherwise (absent fields hold the
  Go zero value).
* Go `int` is taken as a mathematical integer for the stored fields; the
  counter starts at 1 and moves by one per successful create, so it stays far
  from the 64-bit bound.  The bound is kept where the program tests it, in
  `Atoi`, and where a single request is studied on a store whose counter may
  be any `int`: `CreateItemInt64` and `ServeHTTPInt64` increment the counter
  as the machine does, with wrap-around (`wrapInt`), and agree with
  `CreateItem` and `ServeHTTP` on every store whose counter is below the
  largest `int`.
* `float64` prices produced by the JSON decoder are finite; the program only
  copies them and compares them with zero, which agrees with the order of the
  rationals, so `Price` is a rational.
* Decoded strings are valid UTF-8, so they are sequences of Unicode scalars.
* A response keeps the value handed to the encoder (`Body`); the member names
  that `encoding/json` writes for an `Item` are computed from the struct tags
  by `jsonKey`, following `reflect.StructTag.Lookup`.
-/

namespace InventoryApp

/-! ## Data model -/

/-- Item record of `main.go` (lines 13-19). -/
structure Item where
  ID : Int
  Name : String
  Description : String
  Quantity : Int
  Price : Rat
  deriving DecidableEq, Repr

/-- Store of `main.go` (lines 20-24); the mutex is implicit in the sequential model. -/
structure Inventory where
  items : List Item
  nextID : Int
  deriving DecidableEq, Repr

/-- Payload written to the response writer. -/
inductive Body where
  /-- plain text written by `http.Error` (the message, followed by a newline) -/
  | text (msg : String)
  /-- one item written by `json.NewEncoder(w).Encode(item)` -/
  | item (it : Item)
  /-- the item slice written by `json.NewEncoder(w).Encode(inv.items)` -/
  | items (l : List Item)
  /-- nothing written -/
  | empty
  deriving DecidableEq, Repr

/-- Status code, declared content type and payload of a response. -/
structure Response where
  status : Nat
  contentType : Option String
  body : Body
  deriving DecidableEq, Repr

/-- Request as seen by the handlers: method, URL path, outcome of decoding the body. -/
structure Request where
  Method : String
  Path : String
  body : Option Item
  deriving DecidableEq, Repr

/-! ## Library functions used by the program -/

/-- Go `unicode.IsSpace`. -/
def isSpace (c : Char) : Bool :=
  let n := c.toNat
  (9 ≤ n && n ≤ 13) || n == 32 || n == 0x85 || n == 0xA0 || n == 0x1680 ||
  (0x2000 ≤ n && n ≤ 0x200A) || n == 0x2028 || n == 0x2029 || n == 0x202F ||
  n == 0x205F || n == 0x3000

/-- Go `strings.TrimSpace`: leading and trailing white space removed. -/
def TrimSpace (s : String) : String :=
  String.mk ((s.data.dropWhile isSpace).reverse.dropWhile isSpace).reverse

/-- Go `strings.Trim(s, cutset)`: leading and trailing characters of `cutset` removed. -/
def Trim (s : String) (cutset : String) : String :=
  String.mk
    ((s.data.dropWhile (fun c => cutset.data.contains c)).reverse.dropWhile
      (fun c => cutset.data.contains c)).reverse

/-- Splitting of a character list at every occurrence of `sep`. -/
def splitChars (sep : Char) : List Char → List (List Char)
  | [] => [[]]
  | c :: cs =>
    if c = sep then [] :: splitChars sep cs
    else
      match splitChars sep cs with
      | [] => [[c]]
      | w :: ws => (c :: w) :: ws

/-- Go `strings.Split(s, sep)` for a one-character separator. -/
def Split (s : String) (sep : Char) : List String :=
  (splitChars sep s.data).map String.mk

/-- Value of a run of decimal digits, `none` when a character is not a digit. -/
def parseDigits : List Char → Nat → Option Nat
  | [], acc => some acc
  | c :: cs, acc =>
    if 48 ≤ c.toNat ∧ c.toNat ≤ 57 then parseDigits cs (acc * 10 + (c.toNat - 48))
    else none

/-- Go `strconv.Atoi` for a 64-bit `int`: optional sign, at least one decimal digit,
value within the range of `int`. -/
def Atoi (s : String) : Option Int :=
  let signed : Bool × List Char :=
    match s.data with
    | '-' :: t => (true, t)
    | '+' :: t => (false, t)
    | cs => (false, cs)
  if signed.2 = [] then none
  else
    match parseDigits signed.2 0 with
    | none => none
    | some n =>
      if signed.1 then (if n ≤ 2 ^ 63 then some (-(n : Int)) else none)
      else (if n < 2 ^ 63 then some (n : Int) else none)

/-- Go `http.Error(w, msg, code)`. -/
def httpError (msg : String) (code : Nat) : Response :=
  { status := code, contentType := some "text/plain; charset=utf-8", body := Body.text msg }

/-- Response of a handler that sets the JSON content type and encodes `b`. -/
def jsonResponse (code : Nat) (b : Body) : Response :=
  { status := code, contentType := some "application/json", body := b }

/-! ## The store and its handlers -/

/-- Constructor `NewInventory` (lines 26-31). -/
def NewInventory : Inventory :=
  { items := [], nextID := 1 }

/-- The scan `for i, item := range inv.items` with its test `if item.ID == id`:
index and value of the first item whose `ID` is `id`, `none` when the loop runs out. -/
def scan (id : Int) : List Item → Option (Nat × Item)
  | [] => none
  | it :: rest =>
    if it.ID = id then some (0, it) else (scan id rest).map (fun p => (p.1 + 1, p.2))

/-- Handler `CreateItem` (lines 32-63). -/
def CreateItem (inv : Inventory) (r : Request) : Inventory × Response :=
  if r.Method ≠ "POST" then (inv, httpError "Invalid method" 405)
  else
    match r.body with
    | none => (inv, httpError "Invalid Json" 400)
    | some item =>
      if TrimSpace item.Name = "" then (inv, httpError "Name is required" 400)
      else if item.Quantity < 0 then (inv, httpError "quantity cannot be negative" 400)
      else if item.Price < 0 then (inv, httpError "price cannot be negative" 400)
      else
        let item1 : Item := { item with ID := inv.nextID }
        ({ items := inv.items ++ [item1], nextID := inv.nextID + 1 },
          jsonResponse 201 (Body.item item1))

/-- Handler `GetItems` (lines 65-74). -/
def GetItems (inv : Inventory) (r : Request) : Inventory × Response :=
  if r.Method ≠ "GET" then (inv, httpError "Invalid method" 405)
  else (inv, jsonResponse 200 (Body.items inv.items))

/-- Handler `GetItem` (lines 75-91). -/
def GetItem (inv : Inventory) (r : Request) (id : Int) : Inventory × Response :=
  if r.Method ≠ "GET" then (inv, httpError "Invalid method" 405)
  else
    match scan id inv.items with
    | some (_, item) => (inv, jsonResponse 200 (Body.item item))
    | none => (inv, httpError "Item not found" 404)

/-- Field-wise overwrite of lines 106-117: what `inv.items[i]` holds after the four tests. -/
def applyPatch (stored updatedItem : Item) : Item :=
  let s1 : Item :=
    if TrimSpace updatedItem.Name ≠ "" then { stored with Name := updatedItem.Name } else stored
  let s2 : Item :=
    if TrimSpace updatedItem.Description ≠ "" then
      { s1 with Description := updatedItem.Description }
    else s1
  let s3 : Item :=
    if updatedItem.Quantity ≥ 0 then { s2 with Quantity := updatedItem.Quantity } else s2
  if updatedItem.Price ≥ 0 then { s3 with Price := updatedItem.Price } else s3

/-- Handler `UpdateItem` (lines 92-124). -/
def UpdateItem (inv : Inventory) (r : Request) (id : Int) : Inventory × Response :=
  if r.Method ≠ "PUT" then (inv, httpError "Invalid method" 405)
  else
    match r.body with
    | none => (inv, httpError "Invalid Json" 400)
    | some updatedItem =>
      match scan id inv.items with
      | some (i, item) =>
        let item1 := applyPatch item updatedItem
        ({ inv with items := inv.items.set i item1 }, jsonResponse 200 (Body.item item1))
      | none => (inv, httpError "Item not found" 404)

/-- Handler `DeleteItem` (lines 126-141). -/
def DeleteItem (inv : Inventory) (r : Request) (id : Int) : Inventory × Response :=
  if r.Method ≠ "DELETE" then (inv, httpError "Invalid method" 405)
  else
    match scan id inv.items with
    | some (i, _) =>
      ({ inv with items := inv.items.take i ++ inv.items.drop (i + 1) },
        { status := 204, contentType := none, body := Body.empty })
    | none => (inv, httpError "Item not found" 404)

/-- Path segments computed at line 146: `strings.Split(strings.Trim(path, "/"), "/")`. -/
def pathSegments (path : String) : List String :=
  Split (Trim path "/") '/'

/-- Router `ServeHTTP` (lines 143-177). -/
def ServeHTTP (inv : Inventory) (r : Request) : Inventory × Response :=
  match pathSegments r.Path with
  | [seg0] =>
    if seg0 = "items" then
      if r.Method = "GET" then GetItems inv r
      else if r.Method = "POST" then CreateItem inv r
      else (inv, httpError "Method not allowed" 405)
    else (inv, httpError "Not found" 404)
  | [seg0, seg1] =>
    if seg0 = "items" then
      match Atoi seg1 with
      | none => (inv, httpError "Invalid Item ID" 400)
      | some id =>
        if r.Method = "GET" then GetItem inv r id
        else if r.Method = "PUT" then UpdateItem inv r id
        else if r.Method = "DELETE" then DeleteItem inv r id
        else (inv, httpError "Method not allowed" 405)
    else (inv, httpError "Not found" 404)
  | _ => (inv, httpError "Not found" 404)

/-! ## Request sequences -/

/-- Store after serving the requests `rs` one after the other. -/
def exec (inv : Inventory) : List Request → Inventory
  | [] => inv
  | r :: rs => exec (ServeHTTP inv r).1 rs

/-- Test "the request is a `POST` on the collection path `/items`". -/
def isCreate (r : Request) : Bool :=
  decide (r.Method = "POST" ∧ pathSegments r.Path = ["items"])

/-- List of the ids held by a store, in sequence order. -/
def ids (inv : Inventory) : List Int :=
  inv.items.map (fun it => it.ID)

/-- Validation of `CreateItem` (lines 42-53) passed by a decoded body. -/
def validBody (b : Item) : Prop :=
  TrimSpace b.Name ≠ "" ∧ 0 ≤ b.Quantity ∧ 0 ≤ b.Price

instance (b : Item) : Decidable (validBody b) := by
  unfold validBody; infer_instance

/-- Id addressed by a request on an item path `/items/{id}`: the value `ServeHTTP`
obtains from `strconv.Atoi(segments[1])`, `none` for every other path. -/
def targetID (r : Request) : Option Int :=
  match pathSegments r.Path with
  | [seg0, seg1] => if seg0 = "items" then Atoi seg1 else none
  | _ => none

/-- Bodies of the requests of `rs` that are a `POST /items` passing validation. -/
def validCreates : List Request → List Item
  | [] => []
  | r :: rs =>
    match r.body with
    | some b => if isCreate r = true ∧ validBody b then b :: validCreates rs else validCreates rs
    | none => validCreates rs

/-- The bodies `bs` with the ids `start`, `start + 1`, ... written into them, in order. -/
def numbered (start : Int) : List Item → List Item
  | [] => []
  | b :: bs => { b with ID := start } :: numbered (start + 1) bs

/-- Store holding one item with quantity 5. -/
def storeQty5 : Inventory :=
  { items := [{ ID := 1, Name := "Widget", Description := "", Quantity := 5, Price := 2 }],
    nextID := 2 }

/-- Request `PUT /items/1` whose decoded patch has only the price set (to 10). -/
def putPriceOnly : Request :=
  { Method := "PUT", Path := "/items/1",
    body := some { ID := 0, Name := "", Description := "", Quantity := 0, Price := 10 } }

/-- Request `POST /items` whose name is a single blank. -/
def postBlankName : Request :=
  { Method := "POST", Path := "/items",
    body := some { ID := 0, Name := " ", Description := "", Quantity := 1, Price := 1 } }

/-- Request `POST /items` breaking the three validation rules at once. -/
def postAllInvalid : Request :=
  { Method := "POST", Path := "/items",
    body := some { ID := 0, Name := " \t", Description := "", Quantity := -1, Price := -1 } }

/-- Request `POST /items` with a valid body that carries an id of its own (77). -/
def postWidget : Request :=
  { Method := "POST", Path := "/items",
    body := some { ID := 77, Name := "Widget", Description := "", Quantity := 5, Price := 3 } }

/-- Request `GET /items`. -/
def getAll : Request :=
  { Method := "GET", Path := "/items", body := none }

/-- Request `GET /items/1`. -/
def getOne : Request :=
  { Method := "GET", Path := "/items/1", body := none }

/-- Request `DELETE /items/2`. -/
def deleteTwo : Request :=
  { Method := "DELETE", Path := "/items/2", body := none }

/-- Two valid creates with a failed create, a lookup and an unsupported method in between. -/
def sampleTrace : List Request :=
  [postWidget, postBlankName, getOne,
   { Method := "PATCH", Path := "/items/1", body := none },
   { Method := "POST", Path := "/items/",
     body := some { ID := 0, Name := "Bolt", Description := "M8", Quantity := 0, Price := 0 } },
   postAllInvalid]

/-- Store with the three items 1, 2, 3. -/
def threeItems : Inventory :=
  { items :=
      [{ ID := 1, Name := "a", Description := "", Quantity := 1, Price := 1 },
       { ID := 2, Name := "b", Description := "", Quantity := 2, Price := 2 },
       { ID := 3, Name := "c", Description := "", Quantity := 3, Price := 3 }],
    nextID := 4 }

/-- Request `PUT /items/1` whose patch carries an id of its own (9), a new name with
a leading blank, a blank description, a negative quantity and price 0. -/
def putMixed : Request :=
  { Method := "PUT", Path := "/items/1",
    body := some { ID := 9, Name := " Gadget", Description := "  ", Quantity := -4, Price := 0 } }

/-- Request `PUT /items/2` whose patch carries id 9 and renames the item. -/
def putTwo : Request :=
  { Method := "PUT", Path := "/items/2",
    body := some { ID := 9, Name := "B", Description := "", Quantity := -1, Price := -1 } }

/-! ## JSON keys of `Item` -/

/-- Field of a Go struct type: its name and the text of its tag. -/
structure StructField where
  Name : String
  Tag : String
  deriving DecidableEq, Repr

/-- Fields of `Item` with their tags exactly as written on lines 14-18 of `main.go`;
the tag of `Name` is written without quotes around its value. -/
def itemFields : List StructField :=
  [{ Name := "ID", Tag := "json:\"id\"" },
   { Name := "Name", Tag := "json:name" },
   { Name := "Description", Tag := "json:\"description\"" },
   { Name := "Quantity", Tag := "json:\"quantity\"" },
   { Name := "Price", Tag := "json:\"price\"" }]

/-- Characters that `reflect.StructTag.Lookup` accepts in a key: above the blank, and
none of colon, double quote, DEL. -/
def tagKeyChar (c : Char) : Bool :=
  decide (32 < c.toNat) && c != ':' && c != Char.ofNat 34 && c != Char.ofNat 127

/-- Scan of a quoted tag value after its opening quote: the text up to the closing
quote (a backslash protects the character after it) and what follows the closing quote;
`none` when the closing quote is missing. -/
def scanQuoted : List Char → Option (List Char × List Char)
  | [] => none
  | c :: rest =>
    if c = Char.ofNat 34 then some ([], rest)
    else if c = Char.ofNat 92 then
      match rest with
      | [] => none
      | d :: rest2 => (scanQuoted rest2).map (fun q => (c :: d :: q.1, q.2))
    else (scanQuoted rest).map (fun q => (c :: q.1, q.2))

/-- Go `strconv.Unquote` on a double-quoted value, given the text between the quotes:
a text without backslash and line break is returned as it is. Values with escape
sequences do not occur in the tags of this program and are not modelled (`none`). -/
def unquoteText (v : List Char) : Option (List Char) :=
  if v.any (fun c => c == Char.ofNat 92 || c == Char.ofNat 10) then none else some v

/-- Loop of Go `reflect.StructTag.Lookup(key)`, one `key:"value"` pair per round;
`fuel` bounds the number of rounds (every round consumes characters). -/
def lookupLoop (key : List Char) : Nat → List Char → Option (List Char)
  | 0, _ => none
  | fuel + 1, tag =>
    let tag1 := tag.dropWhile (fun c => c == ' ')
    if tag1 = [] then none
    else
      let name := tag1.takeWhile tagKeyChar
      match tag1.dropWhile tagKeyChar with
      | c :: q :: rest =>
        if name = [] ∨ c ≠ ':' ∨ q ≠ Char.ofNat 34 then none
        else
          match scanQuoted rest with
          | none => none
          | some (v, rest2) => if key = name then unquoteText v else lookupLoop key fuel rest2
      | _ => none

/-- Go `reflect.StructTag.Lookup`: value of `key` in a tag made of `key:"value"` pairs,
`none` when the key is absent or the tag is not of that form. -/
def tagLookup (tag : String) (key : String) : Option String :=
  (lookupLoop key.data (tag.length + 1) tag.data).map String.mk

/-- Name part of a json tag (`parseTag` of `encoding/json`): the text before the first comma. -/
def parseTagName (tag : String) : String :=
  String.mk (tag.data.takeWhile (fun c => c != ','))

/-- Test `isValidTag` of `encoding/json`: non-empty, made of letters, digits and the listed
punctuation (letters and digits are the ASCII ones here). -/
def isValidTag (s : String) : Bool :=
  s.data != [] &&
    s.data.all (fun c => "!#$%&()*+-./:;<=>?@[]^_\x7b|\x7d~ ".data.contains c || c.isAlphanum)

/-- Key under which `encoding/json` writes a struct field: the name given by its `json`
tag when there is a valid one, the Go field name otherwise; `none` for the tag `-`
(field left out). -/
def jsonKey (f : StructField) : Option String :=
  let tag := (tagLookup f.Tag "json").getD ""
  if tag = "-" then none
  else
    let name := parseTagName tag
    some (if isValidTag name then name else f.Name)

/-- JSON values written for the fields of an item. -/
inductive JSONValue where
  | int (n : Int)
  | str (s : String)
  | num (q : Rat)
  deriving DecidableEq, Repr

/-- Values of the fields of an item, in the order of the struct declaration. -/
def itemValues (it : Item) : List JSONValue :=
  [JSONValue.int it.ID, JSONValue.str it.Name, JSONValue.str it.Description,
   JSONValue.int it.Quantity, JSONValue.num it.Price]

/-- JSON object written by `json.NewEncoder(w).Encode(item)`: the members in the order of
the struct fields, each under its `jsonKey`. -/
def encodeItem (it : Item) : List (String × JSONValue) :=
  (itemFields.zip (itemValues it)).filterMap
    (fun fv => (jsonKey fv.1).map (fun k => (k, fv.2)))

/-- Request of the example of the specification: `POST /items` with the body
`{"name":"Widget","quantity":5,"price":2.5}` as the decoder reads it. -/
def postWidgetExample : Request :=
  { Method := "POST", Path := "/items",
    body := some { ID := 0, Name := "Widget", Description := "", Quantity := 5, Price := 5 / 2 } }

/-- Request `POST /items` whose name and description have blanks at both ends. -/
def postPadded : Request :=
  { Method := "POST", Path := "/items",
    body := some
      { ID := 0, Name := " Widget ", Description := " spare ", Quantity := 1, Price := 1 } }

/-! ## The counter as a 64-bit `int` -/

/-- Value that Go stores in an `int` (64 bits, two's complement) for the mathematical
result `n`: `n` itself inside `-2^63 .. 2^63 - 1`, wrapped around outside. -/
def wrapInt (n : Int) : Int :=
  (n + 9223372036854775808) % 18446744073709551616 - 9223372036854775808

/-- Handler `CreateItem` (lines 32-63) with `inv.nextID++` (line 56) as the machine
performs it: the incremented counter is wrapped into the range of `int`. -/
def CreateItemInt64 (inv : Inventory) (r : Request) : Inventory × Response :=
  if r.Method ≠ "POST" then (inv, httpError "Invalid method" 405)
  else
    match r.body with
    | none => (inv, httpError "Invalid Json" 400)
    | some item =>
      if TrimSpace item.Name = "" then (inv, httpError "Name is required" 400)
      else if item.Quantity < 0 then (inv, httpError "quantity cannot be negative" 400)
      else if item.Price < 0 then (inv, httpError "price cannot be negative" 400)
      else
        let item1 : Item := { item with ID := inv.nextID }
        ({ items := inv.items ++ [item1], nextID := wrapInt (inv.nextID + 1) },
          jsonResponse 201 (Body.item item1))

/-- Router `ServeHTTP` (lines 143-177) dispatching creates to `CreateItemInt64`. -/
def ServeHTTPInt64 (inv : Inventory) (r : Request) : Inventory × Response :=
  match pathSegments r.Path with
  | [seg0] =>
    if seg0 = "items" then
      if r.Method = "GET" then GetItems inv r
      else if r.Method = "POST" then CreateItemInt64 inv r
      else (inv, httpError "Method not allowed" 405)
    else (inv, httpError "Not found" 404)
  | [seg0, seg1] =>
    if seg0 = "items" then
      match Atoi seg1 with
      | none => (inv, httpError "Invalid Item ID" 400)
      | some id =>
        if r.Method = "GET" then GetItem inv r id
        else if r.Method = "PUT" then UpdateItem inv r id
        else if r.Method = "DELETE" then DeleteItem inv r id
        else (inv, httpError "Method not allowed" 405)
    else (inv, httpError "Not found" 404)
  | _ => (inv, httpError "Not found" 404)

/-- Empty store whose counter holds the largest `int`, `2^63 - 1`. -/
def maxCounterStore : Inventory :=
  { items := [], nextID := 9223372036854775807 }

/-! ## Basic facts about the scan -/

theorem scan_none_iff (id : Int) (l : List Item) :
    scan id l = none ↔ ∀ it ∈ l, it.ID ≠ id := by
  induction l with
  | nil => simp [scan]
  | cons a t ih =>
    by_cases h : a.ID = id
    · simp [scan, h]
    · simp [scan, h, ih]

theorem scan_some_spec (id : Int) (l : List Item) (i : Nat) (it : Item)
    (h : scan id l = some (i, it)) :
    l.get? i = some it ∧ it.ID = id ∧ ∀ x ∈ l.take i, x.ID ≠ id := by
  induction l generalizing i with
  | nil => simp [scan] at h
  | cons a t ih =>
    by_cases ha : a.ID = id
    · simp [scan, ha] at h
      obtain ⟨rfl, rfl⟩ := h
      simp [ha]
    · simp only [scan, ha, if_false, Option.map_eq_some'] at h
      obtain ⟨⟨j, x⟩, hj, hx⟩ := h
      simp only [Prod.mk.injEq] at hx
      obtain ⟨rfl, rfl⟩ := hx
      obtain ⟨h1, h2, h3⟩ := ih j hj
      refine ⟨by simpa using h1, h2, ?_⟩
      intro y hy
      simp only [List.take_succ_cons, List.mem_cons] at hy
      rcases hy with rfl | hy
      · exact ha
      · exact h3 y hy

theorem scan_isSome_iff (id : Int) (l : List Item) :
    (scan id l).isSome ↔ ∃ it ∈ l, it.ID = id := by
  rw [← Option.ne_none_iff_isSome, Ne, scan_none_iff]
  push_neg
  rfl

theorem applyPatch_ID (stored p : Item) : (applyPatch stored p).ID = stored.ID := by
  unfold applyPatch
  simp only []
  split_ifs <;> rfl

/-! ## One request: the four possible effects on the store -/

/-- Effect of one request: the store is left as it was, or an item is appended by a
successful create, or one item is overwritten by an update, or one item is removed. -/
theorem ServeHTTP_effect (inv : Inventory) (r : Request) :
    ((ServeHTTP inv r).1 = inv ∧ (ServeHTTP inv r).2.status ≠ 201 ∧
        (ServeHTTP inv r).2.status ≠ 204) ∨
    (∃ b, r.body = some b ∧ validBody b ∧ isCreate r = true ∧
        ServeHTTP inv r =
          ({ items := inv.items ++ [{ b with ID := inv.nextID }], nextID := inv.nextID + 1 },
            jsonResponse 201 (Body.item { b with ID := inv.nextID }))) ∨
    (∃ seg id i it p, pathSegments r.Path = ["items", seg] ∧ Atoi seg = some id ∧
        r.Method = "PUT" ∧ r.body = some p ∧ scan id inv.items = some (i, it) ∧
        ServeHTTP inv r =
          ({ inv with items := inv.items.set i (applyPatch it p) },
            jsonResponse 200 (Body.item (applyPatch it p)))) ∨
    (∃ seg id i it, pathSegments r.Path = ["items", seg] ∧ Atoi seg = some id ∧
        r.Method = "DELETE" ∧ scan id inv.items = some (i, it) ∧
        ServeHTTP inv r =
          ({ inv with items := inv.items.take i ++ inv.items.drop (i + 1) },
            { status := 204, contentType := none, body := Body.empty })) := by
  unfold ServeHTTP
  split
  · rename_i seg0 hseg
    by_cases h0 : seg0 = "items"
    · subst h0
      by_cases hG : r.Method = "GET"
      · left
        simp [hG, GetItems, jsonResponse]
      · by_cases hP : r.Method = "POST"
        · simp only [hG, hP, if_true, if_false, CreateItem, ne_eq, not_true_eq_false]
          cases hb : r.body with
          | none => left; simp [httpError]
          | some b =>
            by_cases h1 : TrimSpace b.Name = ""
            · left; simp [h1, httpError]
            · by_cases h2 : b.Quantity < 0
              · left; simp [h1, h2, httpError]
              · by_cases h3 : b.Price < 0
                · left; simp [h1, h2, h3, httpError]
                · right; left
                  refine ⟨b, rfl, ⟨h1, not_lt.mp h2, not_lt.mp h3⟩, ?_, ?_⟩
                  · simp [isCreate, hP, hseg]
                  · simp [h1, h2, h3]
        · left
          simp [hG, hP, httpError]
    · left
      simp [h0, httpError]
  · rename_i seg0 seg1 hseg
    by_cases h0 : seg0 = "items"
    · subst h0
      cases hA : Atoi seg1 with
      | none => left; simp [httpError]
      | some id =>
        by_cases hG : r.Method = "GET"
        · left
          simp only [hG, if_true, GetItem, ne_eq, not_true_eq_false, if_false]
          cases scan id inv.items with
          | none => simp [httpError]
          | some q => simp [jsonResponse]
        · by_cases hU : r.Method = "PUT"
          · simp only [hG, hU, if_true, if_false, UpdateItem, ne_eq, not_true_eq_false]
            cases hb : r.body with
            | none => left; simp [httpError]
            | some p =>
              cases hs : scan id inv.items with
              | none => left; simp [httpError]
              | some q =>
                obtain ⟨i, it⟩ := q
                right; right; left
                refine ⟨seg1, id, i, it, p, hseg, hA, ?_, ?_, hs, ?_⟩
                · simp
                · simp
                · simp [hs]
          · by_cases hD : r.Method = "DELETE"
            · simp only [hG, hU, hD, if_true, if_false, DeleteItem, ne_eq, not_true_eq_false]
              cases hs : scan id inv.items with
              | none => left; simp [httpError]
              | some q =>
                obtain ⟨i, it⟩ := q
                right; right; right
                refine ⟨seg1, id, i, it, hseg, hA, ?_, hs, ?_⟩
                · simp
                · simp [hs]
            · left
              simp [hG, hU, hD, httpError]
    · left
      simp [h0, httpError]
  · left
    simp [httpError]

/-! ## Ids handed out by creates -/

theorem ids_set_applyPatch (l : List Item) (id : Int) (i : Nat) (it p : Item)
    (h : scan id l = some (i, it)) :
    (l.set i (applyPatch it p)).map (fun x => x.ID) = l.map (fun x => x.ID) := by
  obtain ⟨hg, _, _⟩ := scan_some_spec id l i it h
  rw [List.map_set, applyPatch_ID]
  apply List.ext_get?
  intro n
  by_cases hn : i = n
  · subst hn
    rw [List.get?_eq_getElem?, List.get?_eq_getElem?] at *
    by_cases hlt : i < l.length
    · rw [List.getElem?_set_self (by simpa using hlt)]
      simp [List.getElem?_map, hg]
    · rw [List.getElem?_eq_none (by simpa using hlt)] at hg
      simp at hg
  · rw [List.get?_eq_getElem?, List.get?_eq_getElem?, List.getElem?_set_ne hn]

theorem TrimSpace_empty : TrimSpace "" = "" := by
  simp [TrimSpace]

theorem isCreate_iff (r : Request) :
    isCreate r = true ↔ r.Method = "POST" ∧ pathSegments r.Path = ["items"] := by
  simp [isCreate]

theorem ServeHTTP_post (inv : Inventory) (r : Request) (hm : r.Method = "POST")
    (hp : pathSegments r.Path = ["items"]) : ServeHTTP inv r = CreateItem inv r := by
  simp [ServeHTTP, hp, hm]

theorem ServeHTTP_item (inv : Inventory) (r : Request) (id : Int) (h : targetID r = some id) :
    ServeHTTP inv r =
      if r.Method = "GET" then GetItem inv r id
      else if r.Method = "PUT" then UpdateItem inv r id
      else if r.Method = "DELETE" then DeleteItem inv r id
      else (inv, httpError "Method not allowed" 405) := by
  unfold targetID at h
  unfold ServeHTTP
  split at h
  · rename_i seg0 seg1 hseg
    by_cases h0 : seg0 = "items"
    · simp only [h0, if_true] at h
      simp [hseg, h0, h]
    · simp [h0] at h
  · simp at h

theorem ServeHTTP_create (inv : Inventory) (r : Request) (b : Item)
    (hc : isCreate r = true) (hb : r.body = some b) (hv : validBody b) :
    ServeHTTP inv r =
      ({ items := inv.items ++ [{ b with ID := inv.nextID }], nextID := inv.nextID + 1 },
        jsonResponse 201 (Body.item { b with ID := inv.nextID })) := by
  obtain ⟨hm, hp⟩ := (isCreate_iff r).mp hc
  obtain ⟨h1, h2, h3⟩ := hv
  rw [ServeHTTP_post inv r hm hp]
  simp [CreateItem, hm, hb, h1, not_lt.mpr h2, not_lt.mpr h3]

/-! ## Claims C1 to C5 -/

/-- C3, the claim as stated fails: on a store whose item 1 has quantity 5, a
`PUT /items/1` whose patch sets only the price is answered 200 and the stored quantity
is 0 afterwards, not 5. -/
theorem C3_quantity_reset_counterexample :
    (ServeHTTP storeQty5 putPriceOnly).2.status = 200 ∧
      (scan 1 storeQty5.items).map (fun q => q.2.Quantity) = some 5 ∧
      (scan 1 (ServeHTTP storeQty5 putPriceOnly).1.items).map (fun q => q.2.Quantity) =
        some 0 := by
  decide

/-- C3 as amended: when the store holds an item with id `i` (found by the scan at index
`k` with value `old`) and `p ≥ 0`, a `PUT /items/i` whose decoded patch has name "",
description "", quantity 0 and price `p` is answered 200 with the stored item, whose
name and description are those of `old`, whose quantity is 0 and whose price is `p`;
the other items and `nextID` are untouched. -/
theorem C3_price_only_patch (inv : Inventory) (r : Request) (i : Int) (p : Rat) (bid : Int)
    (k : Nat) (old : Item) (hm : r.Method = "PUT") (ht : targetID r = some i)
    (hb : r.body = some { ID := bid, Name := "", Description := "", Quantity := 0, Price := p })
    (hs : scan i inv.items = some (k, old)) (hp : 0 ≤ p) :
    ServeHTTP inv r =
      ({ inv with items := inv.items.set k { old with Quantity := 0, Price := p } },
        jsonResponse 200 (Body.item { old with Quantity := 0, Price := p })) := by
  rw [ServeHTTP_item inv r i ht]
  simp [hm, UpdateItem, hb, hs, applyPatch, TrimSpace_empty, hp]

/-- Instance of the amended C3: the price-only patch on the one-item store. -/
theorem C3_price_only_patch_witness :
    ServeHTTP storeQty5 putPriceOnly =
      ({ storeQty5 with
          items := storeQty5.items.set 0
            { ID := 1, Name := "Widget", Description := "", Quantity := 0, Price := 10 } },
        jsonResponse 200
          (Body.item { ID := 1, Name := "Widget", Description := "", Quantity := 0, Price := 10 })) :=
  C3_price_only_patch storeQty5 putPriceOnly 1 10 0 0
    { ID := 1, Name := "Widget", Description := "", Quantity := 5, Price := 2 }
    (by decide) (by decide) (by decide) (by decide) (by decide)

/-- C4: a `POST /items` whose body decodes is answered 400 exactly when the name is
empty after trimming, or the quantity is negative, or the price is negative; a body
that does not decode is answered 400 too; and whenever the answer is 400 the store
(item sequence and `nextID`) is the one before the request. -/
theorem C4_create_400_iff_invalid (inv : Inventory) (r : Request) (hm : r.Method = "POST")
    (hp : pathSegments r.Path = ["items"]) :
    (∀ b, r.body = some b →
        ((ServeHTTP inv r).2.status = 400 ↔
          (TrimSpace b.Name = "" ∨ b.Quantity < 0 ∨ b.Price < 0))) ∧
      (r.body = none → (ServeHTTP inv r).2.status = 400) ∧
      ((ServeHTTP inv r).2.status = 400 → (ServeHTTP inv r).1 = inv) := by
  rw [ServeHTTP_post inv r hm hp]
  refine ⟨?_, ?_, ?_⟩
  · intro b hb
    by_cases h1 : TrimSpace b.Name = ""
    · simp [CreateItem, hm, hb, h1, httpError]
    · by_cases h2 : b.Quantity < 0
      · simp [CreateItem, hm, hb, h1, h2, httpError]
      · by_cases h3 : b.Price < 0
        · simp [CreateItem, hm, hb, h1, h2, h3, httpError]
        · simp [CreateItem, hm, hb, h1, h2, h3, jsonResponse]
  · intro hb
    simp [CreateItem, hm, hb, httpError]
  · cases hb : r.body with
    | none => simp [CreateItem, hm, hb]
    | some b =>
      by_cases h1 : TrimSpace b.Name = ""
      · simp [CreateItem, hm, hb, h1]
      · by_cases h2 : b.Quantity < 0
        · simp [CreateItem, hm, hb, h1, h2]
        · by_cases h3 : b.Price < 0
          · simp [CreateItem, hm, hb, h1, h2, h3]
          · simp [CreateItem, hm, hb, h1, h2, h3, jsonResponse]

/-- Instance of C4: a create whose name is a single blank, on the fresh store. -/
theorem C4_create_400_iff_invalid_witness :
    postBlankName.Method = "POST" ∧ pathSegments postBlankName.Path = ["items"] ∧
      (∀ b, postBlankName.body = some b →
        ((ServeHTTP NewInventory postBlankName).2.status = 400 ↔
          (TrimSpace b.Name = "" ∨ b.Quantity < 0 ∨ b.Price < 0))) ∧
      (postBlankName.body = none → (ServeHTTP NewInventory postBlankName).2.status = 400) ∧
      ((ServeHTTP NewInventory postBlankName).2.status = 400 →
        (ServeHTTP NewInventory postBlankName).1 = NewInventory) :=
  ⟨by decide, by decide,
    C4_create_400_iff_invalid NewInventory postBlankName (by decide) (by decide)⟩

/-- C5: for a `POST /items` with a decoded body the checks run in the order name,
quantity, price and the first failing one decides the message: a name that is empty
after trimming gives "Name is required" whatever quantity and price are; otherwise a
negative quantity gives "quantity cannot be negative" whatever the price is; otherwise
a negative price gives "price cannot be negative"; each with status 400. -/
theorem C5_first_failing_check_wins (inv : Inventory) (r : Request) (b : Item)
    (hm : r.Method = "POST") (hp : pathSegments r.Path = ["items"]) (hb : r.body = some b) :
    (TrimSpace b.Name = "" → (ServeHTTP inv r).2 = httpError "Name is required" 400) ∧
      (TrimSpace b.Name ≠ "" → b.Quantity < 0 →
        (ServeHTTP inv r).2 = httpError "quantity cannot be negative" 400) ∧
      (TrimSpace b.Name ≠ "" → 0 ≤ b.Quantity → b.Price < 0 →
        (ServeHTTP inv r).2 = httpError "price cannot be negative" 400) := by
  rw [ServeHTTP_post inv r hm hp]
  refine ⟨?_, ?_, ?_⟩
  · intro h1
    simp [CreateItem, hm, hb, h1]
  · intro h1 h2
    simp [CreateItem, hm, hb, h1, h2]
  · intro h1 h2 h3
    simp [CreateItem, hm, hb, h1, not_lt.mpr h2, h3]

/-- Instance of C5: a body breaking all three rules gets the name message. -/
theorem C5_first_failing_check_wins_witness :
    postAllInvalid.Method = "POST" ∧ pathSegments postAllInvalid.Path = ["items"] ∧
      postAllInvalid.body =
        some { ID := 0, Name := " \t", Description := "", Quantity := -1, Price := -1 } ∧
      (ServeHTTP NewInventory postAllInvalid).2 = httpError "Name is required" 400 :=
  ⟨by decide, by decide, by decide,
    (C5_first_failing_check_wins NewInventory postAllInvalid
      { ID := 0, Name := " \t", Description := "", Quantity := -1, Price := -1 }
      (by decide) (by decide) (by decide)).1 (by decide)⟩

/-! ## Creates without deletes and updates -/

theorem numbered_length (bs : List Item) (start : Int) :
    (numbered start bs).length = bs.length := by
  induction bs generalizing start with
  | nil => rfl
  | cons b bs ih => simp [numbered, ih]

theorem numbered_getElem? (bs : List Item) (start : Int) (j : Nat) (b : Item)
    (h : bs[j]? = some b) :
    (numbered start bs)[j]? = some { b with ID := start + (j : Int) } := by
  induction bs generalizing start j with
  | nil => simp at h
  | cons a bs ih =>
    cases j with
    | zero =>
      simp only [List.getElem?_cons_zero, Option.some.injEq] at h
      subst h
      simp [numbered]
    | succ j =>
      simp only [List.getElem?_cons_succ] at h
      simp only [numbered, List.getElem?_cons_succ]
      rw [ih (start + 1) j h]
      simp only [Nat.cast_add, Nat.cast_one, Option.some.injEq, Item.mk.injEq, and_true]
      ring

theorem ServeHTTP_not_create (inv : Inventory) (r : Request)
    (hm : r.Method ≠ "DELETE" ∧ r.Method ≠ "PUT")
    (hn : ∀ b, r.body = some b → ¬ (isCreate r = true ∧ validBody b)) :
    (ServeHTTP inv r).1 = inv := by
  rcases ServeHTTP_effect inv r with ⟨e, _, _⟩ | ⟨b, hb, hv, hc, _⟩ |
    ⟨seg, id, i, it, p, _, _, hput, _, _, _⟩ | ⟨seg, id, i, it, _, _, hdel, _, _⟩
  · exact e
  · exact absurd ⟨hc, hv⟩ (hn b hb)
  · exact absurd hput hm.2
  · exact absurd hdel hm.1

theorem exec_creates_only (rs : List Request) (inv : Inventory)
    (h : ∀ r ∈ rs, r.Method ≠ "DELETE" ∧ r.Method ≠ "PUT") :
    exec inv rs =
      { items := inv.items ++ numbered inv.nextID (validCreates rs),
        nextID := inv.nextID + ((validCreates rs).length : Int) } := by
  induction rs generalizing inv with
  | nil => simp [exec, validCreates, numbered]
  | cons r rs ih =>
    have hr := h r (List.mem_cons_self r rs)
    have hrs : ∀ q ∈ rs, q.Method ≠ "DELETE" ∧ q.Method ≠ "PUT" :=
      fun q hq => h q (List.mem_cons_of_mem r hq)
    simp only [exec]
    cases hb : r.body with
    | none =>
      have e := ServeHTTP_not_create inv r hr (by intro b hb2; rw [hb] at hb2; cases hb2)
      rw [e, ih inv hrs]
      simp [validCreates, hb]
    | some b =>
      by_cases hc : isCreate r = true ∧ validBody b
      · rw [ServeHTTP_create inv r b hc.1 hb hc.2, ih _ hrs]
        simp only [validCreates, hb, hc, and_self, if_true, numbered, List.length_cons,
          List.append_assoc, List.singleton_append, Nat.cast_add, Nat.cast_one]
        congr 1
        ring
      · have e := ServeHTTP_not_create inv r hr (by
          intro b2 hb2
          rw [hb] at hb2
          cases hb2
          exact hc)
        rw [e, ih inv hrs]
        simp [validCreates, hb, hc]

theorem ServeHTTP_list (inv : Inventory) (g : Request) (hg : g.Method = "GET")
    (hp : pathSegments g.Path = ["items"]) :
    ServeHTTP inv g = (inv, jsonResponse 200 (Body.items inv.items)) := by
  simp [ServeHTTP, hp, hg, GetItems]

/-! ## Deleting -/

theorem delete_eq_filter (l : List Item) (i : Int) (k : Nat) (it : Item)
    (hn : (l.map (fun x => x.ID)).Nodup) (hs : scan i l = some (k, it)) :
    l.take k ++ l.drop (k + 1) = l.filter (fun x => decide (x.ID ≠ i)) := by
  induction l generalizing k with
  | nil => simp [scan] at hs
  | cons a t ih =>
    simp only [List.map_cons, List.nodup_cons] at hn
    by_cases ha : a.ID = i
    · simp only [scan, ha, if_true, Option.some.injEq, Prod.mk.injEq] at hs
      obtain ⟨rfl, _⟩ := hs
      have hall : ∀ x ∈ t, x.ID ≠ i := by
        intro x hx hxi
        apply hn.1
        rw [ha, ← hxi]
        exact List.mem_map_of_mem _ hx
      simp only [List.take_zero, List.nil_append, zero_add, List.drop_succ_cons, List.drop_zero]
      rw [List.filter_cons_of_neg (by simp [ha])]
      symm
      rw [List.filter_eq_self]
      intro x hx
      simpa using hall x hx
    · simp only [scan, ha, if_false, Option.map_eq_some'] at hs
      obtain ⟨⟨j, x⟩, hj, hx⟩ := hs
      simp only [Prod.mk.injEq] at hx
      obtain ⟨rfl, rfl⟩ := hx
      rw [List.filter_cons_of_pos (by simp [ha])]
      simp only [List.take_succ_cons, List.drop_succ_cons, List.cons_append]
      rw [ih j hn.2 hj]

theorem ServeHTTP_missing (inv : Inventory) (q : Request) (i : Int)
    (hqm : q.Method = "GET" ∨ q.Method = "DELETE") (hqt : targetID q = some i)
    (hi : ∀ it ∈ inv.items, it.ID ≠ i) :
    ServeHTTP inv q = (inv, httpError "Item not found" 404) := by
  have hs : scan i inv.items = none := (scan_none_iff i inv.items).mpr hi
  rw [ServeHTTP_item inv q i hqt]
  rcases hqm with h | h
  · simp [h, GetItem, hs]
  · simp [h, DeleteItem, hs]

theorem ServeHTTP_delete (inv : Inventory) (del : Request) (i : Int) (k : Nat) (it : Item)
    (hdm : del.Method = "DELETE") (hdt : targetID del = some i)
    (hs : scan i inv.items = some (k, it)) :
    ServeHTTP inv del =
      ({ inv with items := inv.items.take k ++ inv.items.drop (k + 1) },
        { status := 204, contentType := none, body := Body.empty }) := by
  rw [ServeHTTP_item inv del i hdt]
  simp [hdm, DeleteItem, hs]

/-- C7: serve from `NewInventory()` any requests none of which is a `DELETE` or a `PUT`;
let the valid creates among them be N bodies, in order. Then `GET /items` is answered
200 with exactly N items, the j-th of which (counting from 1) has id j and the name,
description, quantity and price of the j-th body: creation order. -/
theorem C7_list_is_creates_in_order (rs : List Request) (g : Request)
    (hrs : ∀ r ∈ rs, r.Method ≠ "DELETE" ∧ r.Method ≠ "PUT")
    (hg : g.Method = "GET") (hp : pathSegments g.Path = ["items"]) :
    ServeHTTP (exec NewInventory rs) g =
        (exec NewInventory rs,
          { status := 200, contentType := some "application/json",
            body := Body.items (numbered 1 (validCreates rs)) }) ∧
      (numbered 1 (validCreates rs)).length = (validCreates rs).length ∧
      (∀ (j : Nat) (b : Item), (validCreates rs)[j]? = some b →
        (numbered 1 (validCreates rs))[j]? =
          some { ID := (j : Int) + 1, Name := b.Name, Description := b.Description,
                 Quantity := b.Quantity, Price := b.Price }) := by
  refine ⟨?_, numbered_length _ _, ?_⟩
  · rw [ServeHTTP_list _ g hg hp, exec_creates_only rs NewInventory hrs]
    simp [NewInventory, jsonResponse]
  · intro j b hb
    rw [numbered_getElem? _ 1 j b hb, add_comm]

/-- Instance of C7: two valid creates with failed and foreign requests in between. -/
theorem C7_list_is_creates_in_order_witness :
    (∀ r ∈ sampleTrace, r.Method ≠ "DELETE" ∧ r.Method ≠ "PUT") ∧
      getAll.Method = "GET" ∧ pathSegments getAll.Path = ["items"] ∧
      validCreates sampleTrace =
        [{ ID := 77, Name := "Widget", Description := "", Quantity := 5, Price := 3 },
         { ID := 0, Name := "Bolt", Description := "M8", Quantity := 0, Price := 0 }] ∧
      (ServeHTTP (exec NewInventory sampleTrace) getAll).2 =
        { status := 200, contentType := some "application/json",
          body := Body.items
            [{ ID := 1, Name := "Widget", Description := "", Quantity := 5, Price := 3 },
             { ID := 2, Name := "Bolt", Description := "M8", Quantity := 0, Price := 0 }] } :=
  ⟨by decide, by decide, by decide, by decide,
    (congrArg Prod.snd
      (C7_list_is_creates_in_order sampleTrace getAll (by decide) (by decide) (by decide)).1).trans
      (by decide)⟩

/-- C8: for every store, every id and every `PUT /items/{id}` whose patch decodes, the
answer is 404 exactly when no item of the sequence has that id, and then the store
(item sequence and `nextID`) is the one before the request. -/
theorem C8_update_404_iff_absent (inv : Inventory) (r : Request) (id : Int) (p : Item)
    (hm : r.Method = "PUT") (ht : targetID r = some id) (hb : r.body = some p) :
    ((ServeHTTP inv r).2.status = 404 ↔ ∀ it ∈ inv.items, it.ID ≠ id) ∧
      ((ServeHTTP inv r).2.status = 404 → (ServeHTTP inv r).1 = inv) := by
  rw [ServeHTTP_item inv r id ht]
  cases hs : scan id inv.items with
  | none =>
    have hall := (scan_none_iff id inv.items).mp hs
    simp only [hm, UpdateItem, hb, hs]
    simp only [String.reduceEq, if_false, if_true, ne_eq, not_true_eq_false, httpError,
      true_iff, implies_true, and_true]
    exact hall
  | some q =>
    obtain ⟨k, it⟩ := q
    obtain ⟨hg, hid, _⟩ := scan_some_spec id inv.items k it hs
    have hmem : it ∈ inv.items := List.get?_mem hg
    have hnot : ¬ ∀ x ∈ inv.items, x.ID ≠ id := fun hall => hall it hmem hid
    simp only [hm, UpdateItem, hb, hs]
    simp [jsonResponse, hnot]

/-- Instance of C8: an update of id 1 on the fresh store. -/
theorem C8_update_404_iff_absent_witness :
    putPriceOnly.Method = "PUT" ∧ targetID putPriceOnly = some 1 ∧
      ((ServeHTTP NewInventory putPriceOnly).2.status = 404 ↔
        ∀ it ∈ NewInventory.items, it.ID ≠ 1) ∧
      ((ServeHTTP NewInventory putPriceOnly).2.status = 404 →
        (ServeHTTP NewInventory putPriceOnly).1 = NewInventory) :=
  ⟨by decide, by decide,
    C8_update_404_iff_absent NewInventory putPriceOnly 1
      { ID := 0, Name := "", Description := "", Quantity := 0, Price := 10 }
      (by decide) (by decide) (by decide)⟩

/-- C10: on a store whose ids are pairwise different, `DELETE /items/i` is answered 204
with no body when an item with id `i` is present, the new sequence being the old one
without that item (the other items unchanged, in the same order) and `nextID` the same;
when no item has id `i` the answer is 404 "Item not found" and the store is unchanged. -/
theorem C10_delete_removes_exactly_that_item (inv : Inventory) (del : Request) (i : Int)
    (hn : (ids inv).Nodup) (hdm : del.Method = "DELETE") (hdt : targetID del = some i) :
    ((∃ it ∈ inv.items, it.ID = i) →
        ServeHTTP inv del =
          ({ items := inv.items.filter (fun x => decide (x.ID ≠ i)), nextID := inv.nextID },
            { status := 204, contentType := none, body := Body.empty })) ∧
      ((∀ it ∈ inv.items, it.ID ≠ i) →
        ServeHTTP inv del = (inv, httpError "Item not found" 404)) := by
  refine ⟨?_, ?_⟩
  · intro hpres
    have hsome := (scan_isSome_iff i inv.items).mpr hpres
    obtain ⟨⟨k, it⟩, hs⟩ := Option.isSome_iff_exists.mp hsome
    rw [ServeHTTP_delete inv del i k it hdm hdt hs, delete_eq_filter _ i k it hn hs]
  · intro habs
    exact ServeHTTP_missing inv del i (Or.inr hdm) hdt habs

/-- Instance of C10: deleting the middle one of three items. -/
theorem C10_delete_removes_exactly_that_item_witness :
    (ids threeItems).Nodup ∧ deleteTwo.Method = "DELETE" ∧ targetID deleteTwo = some 2 ∧
      (∃ it ∈ threeItems.items, it.ID = 2) ∧
      ServeHTTP threeItems deleteTwo =
        ({ items :=
            [{ ID := 1, Name := "a", Description := "", Quantity := 1, Price := 1 },
             { ID := 3, Name := "c", Description := "", Quantity := 3, Price := 3 }],
           nextID := 4 },
          { status := 204, contentType := none, body := Body.empty }) :=
  ⟨by decide, by decide, by decide, by decide,
    ((C10_delete_removes_exactly_that_item threeItems deleteTwo 2
      (by decide) (by decide) (by decide)).1 (by decide)).trans (by decide)⟩

/-! ## Updating and looking up -/

theorem applyPatch_eq (old p : Item) :
    applyPatch old p =
      { ID := old.ID,
        Name := if TrimSpace p.Name ≠ "" then p.Name else old.Name,
        Description := if TrimSpace p.Description ≠ "" then p.Description else old.Description,
        Quantity := if 0 ≤ p.Quantity then p.Quantity else old.Quantity,
        Price := if 0 ≤ p.Price then p.Price else old.Price } := by
  unfold applyPatch
  simp only [ge_iff_le]
  split_ifs <;> rfl

theorem ServeHTTP_update (inv : Inventory) (r : Request) (i : Int) (p : Item) (k : Nat)
    (old : Item) (hm : r.Method = "PUT") (ht : targetID r = some i) (hb : r.body = some p)
    (hs : scan i inv.items = some (k, old)) :
    ServeHTTP inv r =
      ({ inv with items := inv.items.set k (applyPatch old p) },
        jsonResponse 200 (Body.item (applyPatch old p))) := by
  rw [ServeHTTP_item inv r i ht]
  simp [hm, UpdateItem, hb, hs]

theorem ServeHTTP_put_200 (inv : Inventory) (r : Request) (i : Int)
    (hm : r.Method = "PUT") (ht : targetID r = some i)
    (h200 : (ServeHTTP inv r).2.status = 200) :
    ∃ p k old, r.body = some p ∧ scan i inv.items = some (k, old) := by
  rw [ServeHTTP_item inv r i ht] at h200
  cases hb : r.body with
  | none => simp [hm, UpdateItem, hb, httpError] at h200
  | some p =>
    cases hs : scan i inv.items with
    | none => simp [hm, UpdateItem, hb, hs, httpError] at h200
    | some q => exact ⟨p, q.1, q.2, rfl, rfl⟩

theorem ServeHTTP_get (inv : Inventory) (r : Request) (i : Int) (k : Nat) (it : Item)
    (hm : r.Method = "GET") (ht : targetID r = some i)
    (hs : scan i inv.items = some (k, it)) :
    ServeHTTP inv r = (inv, jsonResponse 200 (Body.item it)) := by
  rw [ServeHTTP_item inv r i ht]
  simp [hm, GetItem, hs]

theorem scan_of_mem_nodup (l : List Item) (id : Int) (it : Item)
    (hn : (l.map (fun x => x.ID)).Nodup) (hmem : it ∈ l) (hid : it.ID = id) :
    ∃ k, scan id l = some (k, it) := by
  induction l with
  | nil => cases hmem
  | cons a t ih =>
    simp only [List.map_cons, List.nodup_cons] at hn
    rcases List.mem_cons.mp hmem with rfl | ht
    · exact ⟨0, by simp [scan, hid]⟩
    · have ha : a.ID ≠ id := by
        intro h
        apply hn.1
        rw [h, ← hid]
        exact List.mem_map_of_mem _ ht
      obtain ⟨k, hk⟩ := ih hn.2 ht
      exact ⟨k + 1, by simp [scan, ha, hk]⟩

/-! ## Claims C11 to C13 -/

/-- C11: when the store holds an item with id `i`, a `PUT /items/i` with any decoded
patch `p` is answered 200 (negative quantity or price included, nothing is rejected)
with the updated item, and each field is decided on its own: the name is `p.Name` iff
`p.Name` is non-empty after trimming, the description likewise, the quantity is
`p.Quantity` iff `p.Quantity ≥ 0`, the price is `p.Price` iff `p.Price ≥ 0` (so 0 is
applied); a field that is not overwritten keeps its old value. -/
theorem C11_update_decides_each_field (inv : Inventory) (r : Request) (i : Int) (p : Item)
    (hm : r.Method = "PUT") (ht : targetID r = some i) (hb : r.body = some p)
    (hpres : ∃ it ∈ inv.items, it.ID = i) :
    ∃ k old, scan i inv.items = some (k, old) ∧ inv.items.get? k = some old ∧ old.ID = i ∧
      ServeHTTP inv r =
        ({ items := inv.items.set k
              { ID := old.ID,
                Name := if TrimSpace p.Name ≠ "" then p.Name else old.Name,
                Description :=
                  if TrimSpace p.Description ≠ "" then p.Description else old.Description,
                Quantity := if 0 ≤ p.Quantity then p.Quantity else old.Quantity,
                Price := if 0 ≤ p.Price then p.Price else old.Price },
           nextID := inv.nextID },
          { status := 200, contentType := some "application/json",
            body := Body.item
              { ID := old.ID,
                Name := if TrimSpace p.Name ≠ "" then p.Name else old.Name,
                Description :=
                  if TrimSpace p.Description ≠ "" then p.Description else old.Description,
                Quantity := if 0 ≤ p.Quantity then p.Quantity else old.Quantity,
                Price := if 0 ≤ p.Price then p.Price else old.Price } }) := by
  have hsome := (scan_isSome_iff i inv.items).mpr hpres
  obtain ⟨⟨k, old⟩, hs⟩ := Option.isSome_iff_exists.mp hsome
  obtain ⟨hg, hid, _⟩ := scan_some_spec i inv.items k old hs
  refine ⟨k, old, hs, hg, hid, ?_⟩
  rw [ServeHTTP_update inv r i p k old hm ht hb hs, applyPatch_eq]
  rfl

/-- Instance of C11: a patch with a new name, a blank description, a negative quantity
and price 0 on the one-item store. -/
theorem C11_update_decides_each_field_witness :
    putMixed.Method = "PUT" ∧ targetID putMixed = some 1 ∧
      (∃ it ∈ storeQty5.items, it.ID = 1) ∧
      ∃ k old, scan 1 storeQty5.items = some (k, old) ∧ storeQty5.items.get? k = some old ∧
        old.ID = 1 ∧
        ServeHTTP storeQty5 putMixed =
          ({ items := storeQty5.items.set k
                { ID := old.ID,
                  Name := if TrimSpace " Gadget" ≠ "" then " Gadget" else old.Name,
                  Description := if TrimSpace "  " ≠ "" then "  " else old.Description,
                  Quantity := if (0 : Int) ≤ -4 then -4 else old.Quantity,
                  Price := if (0 : Rat) ≤ 0 then 0 else old.Price },
             nextID := storeQty5.nextID },
            { status := 200, contentType := some "application/json",
              body := Body.item
                { ID := old.ID,
                  Name := if TrimSpace " Gadget" ≠ "" then " Gadget" else old.Name,
                  Description := if TrimSpace "  " ≠ "" then "  " else old.Description,
                  Quantity := if (0 : Int) ≤ -4 then -4 else old.Quantity,
                  Price := if (0 : Rat) ≤ 0 then 0 else old.Price } }) :=
  ⟨by decide, by decide, by decide,
    C11_update_decides_each_field storeQty5 putMixed 1
      { ID := 9, Name := " Gadget", Description := "  ", Quantity := -4, Price := 0 }
      (by decide) (by decide) (by decide) (by decide)⟩

/-- C12: after a `PUT /items/i` answered 200, whatever id the patch body carries, the
returned and stored item still has id `i`, the sequence has the same length and the
same ids in the same order, every position other than the updated one holds the item
it held before, and `nextID` is unchanged. -/
theorem C12_update_keeps_ids_and_others (inv : Inventory) (r : Request) (i : Int)
    (hm : r.Method = "PUT") (ht : targetID r = some i)
    (h200 : (ServeHTTP inv r).2.status = 200) :
    (ServeHTTP inv r).1.nextID = inv.nextID ∧
      (ServeHTTP inv r).1.items.length = inv.items.length ∧
      ids (ServeHTTP inv r).1 = ids inv ∧
      ∃ k new, (ServeHTTP inv r).2.body = Body.item new ∧ new.ID = i ∧
        (ServeHTTP inv r).1.items.get? k = some new ∧
        (∀ j, j ≠ k → (ServeHTTP inv r).1.items.get? j = inv.items.get? j) ∧
        (∀ x ∈ inv.items, x.ID ≠ i → x ∈ (ServeHTTP inv r).1.items) := by
  obtain ⟨p, k, old, hb, hs⟩ := ServeHTTP_put_200 inv r i hm ht h200
  obtain ⟨hg, hid, _⟩ := scan_some_spec i inv.items k old hs
  have hk : k < inv.items.length := by
    rw [List.get?_eq_getElem?] at hg
    by_contra hlt
    rw [List.getElem?_eq_none (by omega)] at hg
    cases hg
  rw [ServeHTTP_update inv r i p k old hm ht hb hs]
  refine ⟨rfl, by simp, ids_set_applyPatch inv.items i k old p hs, k, applyPatch old p, rfl,
    by rw [applyPatch_ID, hid], ?_, ?_, ?_⟩
  · simp only [List.get?_eq_getElem?]
    rw [List.getElem?_set_self hk]
  · intro j hj
    simp only [List.get?_eq_getElem?]
    rw [List.getElem?_set_ne (Ne.symm hj)]
  · intro x hx hxi
    obtain ⟨n, hn⟩ := List.mem_iff_get?.mp hx
    have hnk : n ≠ k := by
      intro e
      rw [e, hg] at hn
      cases hn
      exact hxi hid
    apply List.mem_iff_get?.mpr
    refine ⟨n, ?_⟩
    simp only [List.get?_eq_getElem?] at hn ⊢
    rw [List.getElem?_set_ne (Ne.symm hnk)]
    exact hn

/-- Instance of C12: the patch of `putTwo` carries id 9 and is applied to item 2 of
the three-item store. -/
theorem C12_update_keeps_ids_and_others_witness :
    putTwo.Method = "PUT" ∧ targetID putTwo = some 2 ∧
      (ServeHTTP threeItems putTwo).2.status = 200 ∧
      (ServeHTTP threeItems putTwo).1.nextID = threeItems.nextID ∧
      (ServeHTTP threeItems putTwo).1.items.length = threeItems.items.length ∧
      ids (ServeHTTP threeItems putTwo).1 = ids threeItems ∧
      ∃ k new, (ServeHTTP threeItems putTwo).2.body = Body.item new ∧ new.ID = 2 ∧
        (ServeHTTP threeItems putTwo).1.items.get? k = some new ∧
        (∀ j, j ≠ k → (ServeHTTP threeItems putTwo).1.items.get? j = threeItems.items.get? j) ∧
        (∀ x ∈ threeItems.items, x.ID ≠ 2 → x ∈ (ServeHTTP threeItems putTwo).1.items) :=
  ⟨by decide, by decide, by decide,
    C12_update_keeps_ids_and_others threeItems putTwo 2 (by decide) (by decide) (by decide)⟩

/-- C13: on a store whose ids are pairwise different, `GET /items/{id}` is answered 200
with exactly the stored item that has the requested id when there is one, and with
404 "Item not found" when there is none; it is answered 200 exactly when the id occurs
among the items that `GET /items` returns in the same state. -/
theorem C13_get_item_found_or_404 (inv : Inventory) (r g : Request) (id : Int)
    (hn : (ids inv).Nodup) (hm : r.Method = "GET") (ht : targetID r = some id)
    (hg : g.Method = "GET") (hp : pathSegments g.Path = ["items"]) :
    (∀ it ∈ inv.items, it.ID = id →
        ServeHTTP inv r =
          (inv, { status := 200, contentType := some "application/json",
                  body := Body.item it })) ∧
      ((∀ it ∈ inv.items, it.ID ≠ id) →
        ServeHTTP inv r = (inv, httpError "Item not found" 404)) ∧
      ((ServeHTTP inv r).2.status = 200 ↔
        ∃ l, (ServeHTTP inv g).2.body = Body.items l ∧ ∃ it ∈ l, it.ID = id) := by
  refine ⟨?_, ?_, ?_⟩
  · intro it hmem hid
    obtain ⟨k, hk⟩ := scan_of_mem_nodup inv.items id it hn hmem hid
    rw [ServeHTTP_get inv r id k it hm ht hk]
    rfl
  · intro habs
    exact ServeHTTP_missing inv r id (Or.inl hm) ht habs
  · rw [ServeHTTP_list inv g hg hp]
    constructor
    · intro h200
      refine ⟨inv.items, rfl, ?_⟩
      by_contra hne
      push_neg at hne
      rw [ServeHTTP_missing inv r id (Or.inl hm) ht hne] at h200
      simp [httpError] at h200
    · rintro ⟨l, hl, it, hmem, hid⟩
      simp only [jsonResponse, Body.items.injEq] at hl
      subst hl
      obtain ⟨k, hk⟩ := scan_of_mem_nodup inv.items id it hn hmem hid
      rw [ServeHTTP_get inv r id k it hm ht hk]
      rfl

/-- Instance of C13: looking up id 1 in the three-item store. -/
theorem C13_get_item_found_or_404_witness :
    (ids threeItems).Nodup ∧ getOne.Method = "GET" ∧ targetID getOne = some 1 ∧
      getAll.Method = "GET" ∧ pathSegments getAll.Path = ["items"] ∧
      ServeHTTP threeItems getOne =
        (threeItems, { status := 200, contentType := some "application/json",
                       body := Body.item
                         { ID := 1, Name := "a", Description := "", Quantity := 1,
                           Price := 1 } }) :=
  ⟨by decide, by decide, by decide, by decide, by decide,
    (C13_get_item_found_or_404 threeItems getOne getAll 1
      (by decide) (by decide) (by decide) (by decide) (by decide)).1
      { ID := 1, Name := "a", Description := "", Quantity := 1, Price := 1 }
      (by decide) (by decide)⟩

/-! ## Routing -/

theorem splitChars_ne_nil (sep : Char) (l : List Char) : splitChars sep l ≠ [] := by
  cases l with
  | nil => simp [splitChars]
  | cons c cs =>
    unfold splitChars
    split_ifs
    · simp
    · split <;> simp

theorem pathSegments_ne_nil (path : String) : pathSegments path ≠ [] := by
  simp [pathSegments, Split, splitChars_ne_nil]

theorem targetID_of_segments (r : Request) (x : String) (id : Int)
    (hp : pathSegments r.Path = ["items", x]) (ha : Atoi x = some id) :
    targetID r = some id := by
  simp [targetID, hp, ha]

theorem ServeHTTP_bad_id (inv : Inventory) (r : Request) (x : String)
    (hp : pathSegments r.Path = ["items", x]) (ha : Atoi x = none) :
    ServeHTTP inv r = (inv, httpError "Invalid Item ID" 400) := by
  simp [ServeHTTP, hp, ha]

theorem ServeHTTP_item_400 (inv : Inventory) (r : Request) (id : Int)
    (ht : targetID r = some id) (h400 : (ServeHTTP inv r).2.status = 400) :
    r.Method = "PUT" ∧ r.body = none ∧ ServeHTTP inv r = (inv, httpError "Invalid Json" 400) := by
  rw [ServeHTTP_item inv r id ht] at h400 ⊢
  by_cases hG : r.Method = "GET"
  · exfalso
    simp only [hG, if_true, GetItem, ne_eq, not_true_eq_false, if_false] at h400
    cases hs : scan id inv.items with
    | none => simp [hs, httpError] at h400
    | some q => simp [hs, jsonResponse] at h400
  · by_cases hU : r.Method = "PUT"
    · cases hb : r.body with
      | none => simp [hG, hU, UpdateItem, hb]
      | some p =>
        exfalso
        simp only [hU, UpdateItem, hb] at h400
        cases hs : scan id inv.items with
        | none => simp [hs, httpError] at h400
        | some q => simp [hs, jsonResponse] at h400
    · by_cases hD : r.Method = "DELETE"
      · exfalso
        simp only [hD, DeleteItem] at h400
        cases hs : scan id inv.items with
        | none => simp [hs, httpError] at h400
        | some q => simp [hs] at h400
      · exfalso
        simp [hG, hU, hD, httpError] at h400

/-! ## Claims C14 and C15 -/

/-- C14: the routing table of `ServeHTTP` is total. On a path whose segments are exactly
`["items"]` every method other than GET and POST is answered 405; on a path whose
segments are `["items", x]` with `x` accepted by `strconv.Atoi` every method other than
GET, PUT and DELETE is answered 405; on every path of another shape (first segment not
"items", three or more segments; a path with no segment does not exist, the split never
returns an empty list) every method is answered 404 "Not found". In all these cases the
store is the one before the request. -/
theorem C14_routing_is_total (inv : Inventory) (r : Request) :
    (pathSegments r.Path = ["items"] → r.Method ≠ "GET" → r.Method ≠ "POST" →
        ServeHTTP inv r = (inv, httpError "Method not allowed" 405)) ∧
      (∀ x id, pathSegments r.Path = ["items", x] → Atoi x = some id →
        r.Method ≠ "GET" → r.Method ≠ "PUT" → r.Method ≠ "DELETE" →
        ServeHTTP inv r = (inv, httpError "Method not allowed" 405)) ∧
      (pathSegments r.Path ≠ ["items"] → (∀ x, pathSegments r.Path ≠ ["items", x]) →
        ServeHTTP inv r = (inv, httpError "Not found" 404)) ∧
      pathSegments r.Path ≠ [] := by
  refine ⟨?_, ?_, ?_, pathSegments_ne_nil r.Path⟩
  · intro hp hG hP
    simp [ServeHTTP, hp, hG, hP]
  · intro x id hp ha hG hU hD
    rw [ServeHTTP_item inv r id (targetID_of_segments r x id hp ha)]
    simp [hG, hU, hD]
  · intro h1 h2
    unfold ServeHTTP
    split
    · rename_i seg0 hseg
      by_cases h0 : seg0 = "items"
      · exact absurd (by rw [hseg, h0]) h1
      · simp [h0]
    · rename_i seg0 seg1 hseg
      by_cases h0 : seg0 = "items"
      · exact absurd (by rw [hseg, h0]) (h2 seg1)
      · simp [h0]
    · rfl

/-- Instance of C14: `PATCH /items`, `POST /items/7` and `GET /items/7/x`, `GET /stock`
on the three-item store. -/
theorem C14_routing_is_total_witness :
    ServeHTTP threeItems { Method := "PATCH", Path := "/items", body := none } =
        (threeItems, httpError "Method not allowed" 405) ∧
      ServeHTTP threeItems { Method := "POST", Path := "/items/7", body := none } =
        (threeItems, httpError "Method not allowed" 405) ∧
      ServeHTTP threeItems { Method := "GET", Path := "/items/7/x", body := none } =
        (threeItems, httpError "Not found" 404) ∧
      ServeHTTP threeItems { Method := "GET", Path := "/stock", body := none } =
        (threeItems, httpError "Not found" 404) :=
  ⟨(C14_routing_is_total threeItems { Method := "PATCH", Path := "/items", body := none }).1
      (by decide) (by decide) (by decide),
    (C14_routing_is_total threeItems { Method := "POST", Path := "/items/7", body := none }).2.1
      "7" 7 (by decide) (by decide) (by decide) (by decide) (by decide),
    (C14_routing_is_total threeItems
      { Method := "GET", Path := "/items/7/x", body := none }).2.2.1
      (by decide) (fun x => by simp [pathSegments, Split, Trim, splitChars]),
    (C14_routing_is_total threeItems { Method := "GET", Path := "/stock", body := none }).2.2.1
      (by decide) (fun x => by simp [pathSegments, Split, Trim, splitChars])⟩

/-- C15: on a path whose segments are `["items", x]`, when `strconv.Atoi` rejects `x`
the answer is 400 "Invalid Item ID" for every method and every body (the body is not
looked at) and the store is unchanged; when `Atoi` accepts `x` the answer is never
that one, and a 400 can only be the "Invalid Json" of a `PUT` whose body does not
decode. -/
theorem C15_unparsable_id_is_400 (inv : Inventory) (r : Request) (x : String)
    (hp : pathSegments r.Path = ["items", x]) :
    (Atoi x = none → ServeHTTP inv r = (inv, httpError "Invalid Item ID" 400)) ∧
      (∀ id, Atoi x = some id →
        (ServeHTTP inv r).2 ≠ httpError "Invalid Item ID" 400 ∧
        ((ServeHTTP inv r).2.status = 400 →
          r.Method = "PUT" ∧ r.body = none ∧
            ServeHTTP inv r = (inv, httpError "Invalid Json" 400))) := by
  refine ⟨ServeHTTP_bad_id inv r x hp, ?_⟩
  intro id ha
  have ht := targetID_of_segments r x id hp ha
  refine ⟨?_, ServeHTTP_item_400 inv r id ht⟩
  intro heq
  have h400 : (ServeHTTP inv r).2.status = 400 := by rw [heq]; rfl
  obtain ⟨_, _, he⟩ := ServeHTTP_item_400 inv r id ht h400
  rw [he] at heq
  simp [httpError] at heq

/-- Instance of C15: `DELETE /items/abc` on the three-item store. -/
theorem C15_unparsable_id_is_400_witness :
    pathSegments "/items/abc" = ["items", "abc"] ∧ Atoi "abc" = none ∧
      ServeHTTP threeItems { Method := "DELETE", Path := "/items/abc", body := none } =
        (threeItems, httpError "Invalid Item ID" 400) :=
  ⟨by decide, by decide,
    (C15_unparsable_id_is_400 threeItems
      { Method := "DELETE", Path := "/items/abc", body := none } "abc" (by decide)).1
      (by decide)⟩

/-! ## Encoding of items -/

theorem jsonKey_itemFields :
    itemFields.map jsonKey =
      [some "id", some "Name", some "description", some "quantity", some "price"] := by
  decide

theorem encodeItem_eq (it : Item) :
    encodeItem it =
      [("id", JSONValue.int it.ID), ("Name", JSONValue.str it.Name),
       ("description", JSONValue.str it.Description),
       ("quantity", JSONValue.int it.Quantity), ("price", JSONValue.num it.Price)] := by
  have h := jsonKey_itemFields
  simp only [itemFields, List.map_cons, List.map_nil, List.cons.injEq, and_true] at h
  obtain ⟨h1, h2, h3, h4, h5⟩ := h
  simp [encodeItem, itemFields, itemValues, List.filterMap_cons, h1, h2, h3, h4, h5]

/-! ## Claim C16 -/

/-- C16, the code at the example of the specification: `POST /items` with
`{"name":"Widget","quantity":5,"price":2.5}` on a fresh inventory is answered 201 with
item 1, and the JSON object written for it has the members `id`, `Name`, `description`,
`quantity`, `price` in that order. The second key is `Name`, the Go field name, not
`name`: the tag of that field lacks the quotes, so no `json` key is found in it. The
same keys are written for every item. -/
theorem C16_written_key_is_Name :
    (ServeHTTP NewInventory postWidgetExample).2 =
        { status := 201, contentType := some "application/json",
          body := Body.item
            { ID := 1, Name := "Widget", Description := "", Quantity := 5, Price := 5 / 2 } } ∧
      encodeItem { ID := 1, Name := "Widget", Description := "", Quantity := 5, Price := 5 / 2 } =
        [("id", JSONValue.int 1), ("Name", JSONValue.str "Widget"),
         ("description", JSONValue.str ""), ("quantity", JSONValue.int 5),
         ("price", JSONValue.num (5 / 2))] ∧
      (∀ it : Item,
        (encodeItem it).map Prod.fst = ["id", "Name", "description", "quantity", "price"]) ∧
      tagLookup "json:name" "json" = none := by
  refine ⟨?_, encodeItem_eq _, ?_, by decide⟩
  · rw [ServeHTTP_create NewInventory postWidgetExample
      { ID := 0, Name := "Widget", Description := "", Quantity := 5, Price := 5 / 2 }
      (by decide) rfl ⟨by decide, by decide, by norm_num⟩]
    rfl
  · intro it
    rw [encodeItem_eq]
    rfl

/-! ## Claims C18 to C20 -/

/-- C19: the store after a request differs from the store before it only when the
answer is a 201 to a `POST /items`, a 204 to a `DELETE /items/{id}` or a 200 to a
`PUT /items/{id}`; every GET and every request answered 400, 404 or 405 leaves the
item sequence and `nextID` as they were. -/
theorem C19_store_changes_only_on_success (inv : Inventory) (r : Request) :
    ((ServeHTTP inv r).1 ≠ inv →
        (r.Method = "POST" ∧ pathSegments r.Path = ["items"] ∧
            (ServeHTTP inv r).2.status = 201) ∨
          (r.Method = "DELETE" ∧ (∃ id, targetID r = some id) ∧
            (ServeHTTP inv r).2.status = 204) ∨
          (r.Method = "PUT" ∧ (∃ id, targetID r = some id) ∧
            (ServeHTTP inv r).2.status = 200)) ∧
      (r.Method = "GET" → (ServeHTTP inv r).1 = inv) ∧
      ((ServeHTTP inv r).2.status = 400 ∨ (ServeHTTP inv r).2.status = 404 ∨
          (ServeHTTP inv r).2.status = 405 → (ServeHTTP inv r).1 = inv) := by
  rcases ServeHTTP_effect inv r with ⟨e, _, _⟩ | ⟨b, _, _, hc, he⟩ |
    ⟨seg, id, k, it, p, hp, ha, hput, _, _, he⟩ | ⟨seg, id, k, it, hp, ha, hdel, _, he⟩
  · exact ⟨fun h => absurd e h, fun _ => e, fun _ => e⟩
  · obtain ⟨hm, hp⟩ := (isCreate_iff r).mp hc
    refine ⟨fun _ => Or.inl ⟨hm, hp, by rw [he]; rfl⟩, ?_, ?_⟩
    · intro hg
      rw [hm] at hg
      exact absurd hg (by decide)
    · intro h
      rw [he] at h
      simp [jsonResponse] at h
  · refine ⟨fun _ => Or.inr (Or.inr
      ⟨hput, ⟨id, targetID_of_segments r seg id hp ha⟩, by rw [he]; rfl⟩), ?_, ?_⟩
    · intro hg
      rw [hput] at hg
      exact absurd hg (by decide)
    · intro h
      rw [he] at h
      simp [jsonResponse] at h
  · refine ⟨fun _ => Or.inr (Or.inl
      ⟨hdel, ⟨id, targetID_of_segments r seg id hp ha⟩, by rw [he]⟩), ?_, ?_⟩
    · intro hg
      rw [hdel] at hg
      exact absurd hg (by decide)
    · intro h
      rw [he] at h
      simp at h

/-- Instance of C19: a delete that changes the three-item store is answered 204. -/
theorem C19_store_changes_only_on_success_witness :
    (ServeHTTP threeItems deleteTwo).1 ≠ threeItems ∧
      ((deleteTwo.Method = "POST" ∧ pathSegments deleteTwo.Path = ["items"] ∧
            (ServeHTTP threeItems deleteTwo).2.status = 201) ∨
          (deleteTwo.Method = "DELETE" ∧ (∃ id, targetID deleteTwo = some id) ∧
            (ServeHTTP threeItems deleteTwo).2.status = 204) ∨
          (deleteTwo.Method = "PUT" ∧ (∃ id, targetID deleteTwo = some id) ∧
            (ServeHTTP threeItems deleteTwo).2.status = 200)) :=
  ⟨by decide, (C19_store_changes_only_on_success threeItems deleteTwo).1 (by decide)⟩

/-- C20: trimming only decides validity, the stored text is the supplied one. A create
whose name is non-empty after trimming (and whose quantity and price pass) stores and
returns the name and the description of the body character for character; an update
whose name (or description) is non-empty after trimming stores and returns exactly
that name (or description), white space at both ends included. -/
theorem C20_strings_stored_as_supplied :
    (∀ (inv : Inventory) (r : Request) (b : Item),
        r.Method = "POST" → pathSegments r.Path = ["items"] → r.body = some b →
        TrimSpace b.Name ≠ "" → 0 ≤ b.Quantity → 0 ≤ b.Price →
        ∃ it, (ServeHTTP inv r).2.body = Body.item it ∧
          (ServeHTTP inv r).1.items = inv.items ++ [it] ∧
          it.Name = b.Name ∧ it.Description = b.Description) ∧
      (∀ (inv : Inventory) (r : Request) (i : Int) (p : Item) (k : Nat) (old : Item),
        r.Method = "PUT" → targetID r = some i → r.body = some p →
        scan i inv.items = some (k, old) →
        ∃ new, (ServeHTTP inv r).2.body = Body.item new ∧
          (ServeHTTP inv r).1.items.get? k = some new ∧
          (TrimSpace p.Name ≠ "" → new.Name = p.Name) ∧
          (TrimSpace p.Description ≠ "" → new.Description = p.Description)) := by
  refine ⟨?_, ?_⟩
  · intro inv r b hm hp hb h1 h2 h3
    rw [ServeHTTP_create inv r b ((isCreate_iff r).mpr ⟨hm, hp⟩) hb ⟨h1, h2, h3⟩]
    exact ⟨{ b with ID := inv.nextID }, rfl, rfl, rfl, rfl⟩
  · intro inv r i p k old hm ht hb hs
    obtain ⟨hg, _, _⟩ := scan_some_spec i inv.items k old hs
    have hk : k < inv.items.length := by
      rw [List.get?_eq_getElem?] at hg
      by_contra hlt
      rw [List.getElem?_eq_none (by omega)] at hg
      cases hg
    rw [ServeHTTP_update inv r i p k old hm ht hb hs]
    refine ⟨applyPatch old p, rfl, ?_, ?_, ?_⟩
    · simp only [List.get?_eq_getElem?]
      rw [List.getElem?_set_self hk]
    · intro h
      rw [applyPatch_eq]
      simp [h]
    · intro h
      rw [applyPatch_eq]
      simp [h]

/-- Instance of C20: the name " Widget " is stored and returned with its blanks, by a
create on the fresh store. -/
theorem C20_strings_stored_as_supplied_witness :
    ∃ it, (ServeHTTP NewInventory postPadded).2.body = Body.item it ∧
      (ServeHTTP NewInventory postPadded).1.items = NewInventory.items ++ [it] ∧
      it.Name = " Widget " ∧ it.Description = " spare " :=
  C20_strings_stored_as_supplied.1 NewInventory postPadded
    { ID := 0, Name := " Widget ", Description := " spare ", Quantity := 1, Price := 1 }
    (by decide) (by decide) (by decide) (by decide) (by decide) (by decide)

/-! ## Claim C6: a create on a store with any counter -/

theorem wrapInt_of_range (n : Int) (hlo : -9223372036854775808 ≤ n)
    (hhi : n ≤ 9223372036854775807) : wrapInt n = n := by
  unfold wrapInt
  omega

theorem ServeHTTPInt64_post (inv : Inventory) (r : Request) (hm : r.Method = "POST")
    (hp : pathSegments r.Path = ["items"]) : ServeHTTPInt64 inv r = CreateItemInt64 inv r := by
  simp [ServeHTTPInt64, hp, hm]

theorem CreateItemInt64_valid (inv : Inventory) (r : Request) (b : Item)
    (hm : r.Method = "POST") (hb : r.body = some b)
    (h1 : TrimSpace b.Name ≠ "") (h2 : 0 ≤ b.Quantity) (h3 : 0 ≤ b.Price) :
    CreateItemInt64 inv r =
      ({ items := inv.items ++ [{ b with ID := inv.nextID }],
         nextID := wrapInt (inv.nextID + 1) },
        jsonResponse 201 (Body.item { b with ID := inv.nextID })) := by
  simp [CreateItemInt64, hm, hb, h1, not_lt.mpr h2, not_lt.mpr h3]

theorem CreateItemInt64_eq_CreateItem (inv : Inventory) (r : Request)
    (hlo : -9223372036854775808 ≤ inv.nextID) (hhi : inv.nextID < 9223372036854775807) :
    CreateItemInt64 inv r = CreateItem inv r := by
  unfold CreateItemInt64 CreateItem
  rw [wrapInt_of_range (inv.nextID + 1) (by omega) (by omega)]

theorem ServeHTTPInt64_eq_ServeHTTP (inv : Inventory) (r : Request)
    (hlo : -9223372036854775808 ≤ inv.nextID) (hhi : inv.nextID < 9223372036854775807) :
    ServeHTTPInt64 inv r = ServeHTTP inv r := by
  unfold ServeHTTPInt64 ServeHTTP
  rw [CreateItemInt64_eq_CreateItem inv r hlo hhi]

/-- C6, the claim as stated fails: on a store whose counter holds the largest `int`,
`2^63 - 1`, a valid `POST /items` is answered 201 and the item gets id `2^63 - 1`, but
the counter afterwards is `-2^63`, not `nextID + 1 = 2^63`. -/
theorem C6_counter_wraps_at_max_counterexample :
    (ServeHTTPInt64 maxCounterStore postWidget).2 =
        { status := 201, contentType := some "application/json",
          body := Body.item
            { ID := 9223372036854775807, Name := "Widget", Description := "", Quantity := 5,
              Price := 3 } } ∧
      (ServeHTTPInt64 maxCounterStore postWidget).1.nextID = -9223372036854775808 ∧
      (ServeHTTPInt64 maxCounterStore postWidget).1.nextID ≠ maxCounterStore.nextID + 1 := by
  rw [ServeHTTPInt64_post maxCounterStore postWidget (by decide) (by decide),
    CreateItemInt64_valid maxCounterStore postWidget
      { ID := 77, Name := "Widget", Description := "", Quantity := 5, Price := 3 }
      (by decide) rfl (by decide) (by decide) (by decide)]
  refine ⟨rfl, ?_, ?_⟩
  · show wrapInt (9223372036854775807 + 1) = -9223372036854775808
    unfold wrapInt
    norm_num
  · show wrapInt (9223372036854775807 + 1) ≠ 9223372036854775807 + 1
    unfold wrapInt
    norm_num

/-- C6 as amended: for every store `inv` whose counter is an `int` below the largest
one (`-2^63 ≤ nextID < 2^63 - 1`) and every `POST /items` whose decoded body `b` passes
validation, the answer is 201 and carries `b` with its id replaced by `inv.nextID`
(name, description, quantity and price are those of `b`); the new store has
`nextID = inv.nextID + 1` and its sequence is `inv.items` with that item appended. -/
theorem C6_create_appends_below_max_counter (inv : Inventory) (r : Request) (b : Item)
    (hm : r.Method = "POST") (hp : pathSegments r.Path = ["items"]) (hb : r.body = some b)
    (h1 : TrimSpace b.Name ≠ "") (h2 : 0 ≤ b.Quantity) (h3 : 0 ≤ b.Price)
    (hlo : -9223372036854775808 ≤ inv.nextID) (hhi : inv.nextID < 9223372036854775807) :
    ServeHTTPInt64 inv r =
      ({ items := inv.items ++
            [{ ID := inv.nextID, Name := b.Name, Description := b.Description,
               Quantity := b.Quantity, Price := b.Price }],
         nextID := inv.nextID + 1 },
        { status := 201, contentType := some "application/json",
          body := Body.item
            { ID := inv.nextID, Name := b.Name, Description := b.Description,
              Quantity := b.Quantity, Price := b.Price } }) := by
  rw [ServeHTTPInt64_post inv r hm hp, CreateItemInt64_valid inv r b hm hb h1 h2 h3,
    wrapInt_of_range (inv.nextID + 1) (by omega) (by omega)]
  rfl

/-- Instance of the amended C6: a valid body carrying id 77 is stored with id 2 and
the counter moves from 2 to 3. -/
theorem C6_create_appends_below_max_counter_witness :
    ServeHTTPInt64 storeQty5 postWidget =
      ({ items := storeQty5.items ++
            [{ ID := 2, Name := "Widget", Description := "", Quantity := 5, Price := 3 }],
         nextID := 2 + 1 },
        { status := 201, contentType := some "application/json",
          body := Body.item
            { ID := 2, Name := "Widget", Description := "", Quantity := 5, Price := 3 } }) :=
  C6_create_appends_below_max_counter storeQty5 postWidget
    { ID := 77, Name := "Widget", Description := "", Quantity := 5, Price := 3 }
    (by decide) (by decide) (by decide) (by decide) (by decide) (by decide)
    (by decide) (by decide)

end InventoryApp
